import Mathlib

/-!
Verification development for the zotero/attachment-proxy service.

The definitions below are a shallow embedding of the JavaScript sources
src/server.js, src/zip.js and src/storage.js.  JavaScript strings become
Lean String, machine integers become Nat, JSON fields that may be absent
become Option, and fallible operations return Option or an explicit
outcome type.  Platform builtins that the repository merely calls
(HMAC digests, Buffer base64 decoding, escape, decodeURIComponent, the
mime lookup) are threaded through as explicit function parameters.
-/

namespace AttachmentProxy

/-! ## JavaScript truthiness helpers

JavaScript conditionals such as if (payload.expires) treat the number 0,
an absent field, and the empty string as false. -/

/-- Truthiness of an optional JSON number field: absent or 0 is falsy. -/
def truthyNat : Option Nat → Bool
  | none => false
  | some n => n != 0

/-- Truthiness of an optional JSON string field: absent or empty is falsy. -/
def truthyStr : Option String → Bool
  | none => false
  | some s => s != ""

/-! ## Signature pattern, src/server.js line 106

The fast-reject test on the signature path segment is the regular
expression anchored-64-of-[0-9A-Fa-f].  Note that it admits both cases. -/

/-- One character of the character class [0-9A-Fa-f] used by the
fast-reject regular expression in src/server.js line 106. -/
def isHexDigitChar (c : Char) : Bool :=
  (('0' ≤ c) && (c ≤ '9')) || (('A' ≤ c) && (c ≤ 'F')) || (('a' ≤ c) && (c ≤ 'f'))

/-- The fast-reject test of src/server.js line 106: the signature segment
matches the anchored pattern of exactly 64 characters from [0-9A-Fa-f]. -/
def matchesSignatureRe (s : String) : Bool :=
  s.length == 64 && s.toList.all isHexDigitChar

/-- A lowercase hexadecimal digit [0-9a-f].  This is the character class
the specification text describes; it is stated for comparison with the
class the code actually uses. -/
def isLowerHexDigitChar (c : Char) : Bool :=
  (('0' ≤ c) && (c ≤ '9')) || (('a' ≤ c) && (c ≤ 'f'))

/-- The pattern described by the specification: exactly 64 lowercase
hexadecimal characters. -/
def isLowerHex64 (s : String) : Bool :=
  s.length == 64 && s.toList.all isLowerHexDigitChar

/-! ## Decoded capability token, src/server.js lines 117-123

The payload path segment is base64 decoded and JSON parsed.  Fields that
the JSON object may lack are Option. -/

/-- The decoded request payload of src/server.js.  The zip field is kept
as its truthiness, which is all the code consults. -/
structure Payload where
  expires : Option Nat
  hash : Option String
  zip : Bool
  filename : Option String
  contentType : Option String
  charset : Option String
deriving DecidableEq

/-! ## Archive mounts, src/zip.js

The Zip constructor of src/zip.js lines 32-42.  The yauzl zipfile handle
is modelled by the Boolean zipfileOpen; the filename index this.entries
is an association list where a later assignment is prepended, so that
List.lookup returns the most recently indexed entry, matching assignment
to a JavaScript object key. -/

/-- A central-directory entry as consumed by src/zip.js: its raw name and
its declared uncompressed size. -/
structure ZipEntry where
  fileName : String
  uncompressedSize : Nat
deriving DecidableEq

/-- The Zip mount object of src/zip.js lines 32-42. -/
structure Zip where
  maxFiles : Nat
  maxFileSize : Nat
  isActive : Bool
  entries : List (String × ZipEntry)
  path : String
  accessed : Nat
  zipfileOpen : Bool
  activeStreamNum : Nat
deriving DecidableEq

/-- Zip.prototype.destroy, src/zip.js lines 191-197: clear isActive and
close the zipfile handle.  It does not touch the staged file at path. -/
def Zip.destroy (z : Zip) : Zip :=
  { z with isActive := false, zipfileOpen := false }

/-! ## Legacy filename decoding, src/zip.js lines 136-148

decodeOldFilename drops the 5-character marker, base64 decodes the rest
with Buffer, applies the global escape, then decodeURIComponent.  Of the
builtins involved only decodeURIComponent can throw, hence only that one
returns Option; the try-catch of the source maps a throw to null.  The
builtins themselves are platform primitives, not repository code, so
they are threaded through as parameters. -/

/-- The JavaScript platform string primitives used by decodeOldFilename:
Buffer base64 decoding plus toString (lenient, never throws), the global
escape (total), and decodeURIComponent (throws URIError on malformed
input, hence Option). -/
structure JsStringPrims where
  bufferBase64ToString : String → String
  jsEscape : String → String
  jsDecodeURIComponent : String → Option String

/-- Zip.prototype.decodeOldFilename, src/zip.js lines 136-148: strip the
trailing 5 characters, base64 decode, escape, decodeURIComponent; any
throw is caught and becomes null (here none). -/
def decodeOldFilename (prims : JsStringPrims) (filename : String) : Option String :=
  prims.jsDecodeURIComponent (prims.jsEscape (prims.bufferBase64ToString (filename.dropRight 5)))

/-! ## Entry processing, src/zip.js lines 116-134

Zip.prototype.\_processEntry first enforces maxFileSize.  In the source
the oversize branch executes return callback(new Error(...)), but no
binding named callback exists in the scope of \_processEntry (it is
neither a parameter nor a closure variable), so evaluating the
identifier raises a ReferenceError that escapes the entry event
handler.  The embedding records that outcome as a thrown JavaScript
error distinct from the Error the author evidently meant to deliver. -/

/-- The outcome of processing one entry: an updated filename index, or a
JavaScript exception escaping the handler. -/
inductive ProcessResult where
  | ok (entries : List (String × ZipEntry))
  | thrown (errName errMsg : String)
deriving DecidableEq

/-- The indexing part of \_processEntry (src/zip.js lines 122-133): skip
directory entries, decode a legacy %ZB64 name, and index the entry when
the resulting name is truthy.  A later entry with the same name is
prepended, so lookups see the newest binding, as with assignment to a
JavaScript object key. -/
def indexEntryStep (prims : JsStringPrims) (entries : List (String × ZipEntry))
    (entry : ZipEntry) : List (String × ZipEntry) :=
  if entry.fileName.takeRight 1 ≠ "/" then
    let decoded : Option String :=
      if entry.fileName.takeRight 5 == "%ZB64" then
        decodeOldFilename prims entry.fileName
      else
        some entry.fileName
    match decoded with
    | some f => if f ≠ "" then (f, entry) :: entries else entries
    | none => entries
  else entries

/-- Zip.prototype.\_processEntry, src/zip.js lines 116-134.  The oversize
check fires first; its branch evaluates the unbound identifier callback
and therefore throws a ReferenceError.  Otherwise the entry is indexed
as in indexEntryStep. -/
def processEntry (prims : JsStringPrims) (z : Zip) (entry : ZipEntry) : ProcessResult :=
  if z.maxFileSize ≠ 0 && entry.uncompressedSize > z.maxFileSize then
    .thrown "ReferenceError" "callback is not defined"
  else
    .ok (indexEntryStep prims z.entries entry)

/-- The entry event loop of src/zip.js lines 96-101: process each entry
in order, stopping when an exception escapes the handler. -/
def runEntries (prims : JsStringPrims) (z : Zip) : List ZipEntry → ProcessResult
  | [] => .ok z.entries
  | e :: rest =>
    match processEntry prims z e with
    | .ok es => runEntries prims { z with entries := es } rest
    | .thrown n m => .thrown n m

/-! ## Loading, src/zip.js lines 52-114 -/

/-- The outcome of Zip.prototype.load.  ok is the end event path that
marks the mount active and calls back without error; failed is an error
delivered to the load callback, in which case load ran zip.destroy()
first (src/zip.js lines 59-63); crashed is a JavaScript exception that
escaped the entry event handler and never reached the callback. -/
inductive LoadResult where
  | ok (z : Zip)
  | failed (z : Zip) (msg : String)
  | crashed (errName errMsg : String)
deriving DecidableEq

/-- A fresh Zip as configured by Zip.prototype.load, src/zip.js
lines 52-57. -/
def Zip.fresh (maxFiles maxFileSize : Nat) (path : String) : Zip :=
  { maxFiles := maxFiles, maxFileSize := maxFileSize, isActive := false,
    entries := [], path := path, accessed := 0, zipfileOpen := false,
    activeStreamNum := 0 }

/-- Zip.prototype.load together with \_open, src/zip.js lines 52-114.
yauzlErr stands for an error reported by yauzl itself (open failure or a
later parse error event); when present it is delivered to the load
callback after zip.destroy().  Otherwise the declared entry count is
checked against maxFiles, the entries are enumerated, and on the end
event the mount becomes active. -/
def zipLoadModel (prims : JsStringPrims) (maxFiles maxFileSize : Nat) (path : String)
    (yauzlErr : Option String) (entryList : List ZipEntry) : LoadResult :=
  let z := Zip.fresh maxFiles maxFileSize path
  match yauzlErr with
  | some e => .failed z.destroy e
  | none =>
    if maxFiles ≠ 0 && entryList.length > maxFiles then
      .failed z.destroy "Too many entries"
    else
      match runEntries prims { z with zipfileOpen := true } entryList with
      | .thrown n m => .crashed n m
      | .ok es => .ok { z with zipfileOpen := true, entries := es, isActive := true }

/-! ## Entry streams, src/zip.js lines 156-189

getStream checks isActive, looks up the filename index, increments
activeStreamNum, then opens the read stream.  An open failure decrements
immediately.  On the returned stream the source registers exactly two
handlers: the error event destroys the zip and decrements, and the end
event decrements.  No handler is attached to the close event, so a
stream destroyed by its consumer without error (a client disconnect)
fires neither registered handler. -/

/-- How an opened entry stream terminates.  abandoned is destruction by
the consumer (client disconnect) without an error: the stream emits
close but neither end nor error. -/
inductive StreamEnd where
  | ended
  | readError
  | abandoned
deriving DecidableEq

/-- Zip.prototype.getStream, src/zip.js lines 156-189, up to handing the
read stream to the callback.  Returns the zip after the call and either
unit for a delivered stream or the error message. -/
def getStreamModel (z : Zip) (filename : String) (openOk : Bool) :
    Zip × Except String Unit :=
  if !z.isActive then
    (z, .error "Zip object is not active")
  else
    match z.entries.lookup filename with
    | none => (z, .error "EntryNotFound")
    | some _ =>
      let z1 := { z with activeStreamNum := z.activeStreamNum + 1 }
      if openOk then
        (z1, .ok ())
      else
        ({ z1 with activeStreamNum := z1.activeStreamNum - 1 }, .error "open error")

/-- The effect on the zip of the termination of a delivered stream, as
dictated by the handlers registered in src/zip.js lines 179-185: end
decrements; error destroys then decrements; consumer abandonment fires
no registered handler and leaves the zip unchanged. -/
def endStreamModel (z : Zip) : StreamEnd → Zip
  | .ended => { z with activeStreamNum := z.activeStreamNum - 1 }
  | .readError => { z.destroy with activeStreamNum := z.activeStreamNum - 1 }
  | .abandoned => z

/-! ## The request route, src/server.js lines 98-173

The GET route for payload, signature and filename path segments.  The
surrounding platform pieces are supplied through an environment: the
HMAC digest function, base64-plus-JSON payload decoding, the clock, the
registry slot for the token hash, the staged download, the store, and
the mime table.  The error middleware of src/server.js lines 60-76 maps
a thrown error without a status field to 500, which is applied here at
each throw site. -/

/-- The platform environment of one request. -/
structure ServerEnv where
  hmacSig : String → String
  decodePayload : String → Option Payload
  now : Nat
  reg : Option Zip
  prims : JsStringPrims
  zipMaxFiles : Nat
  zipMaxFileSize : Nat
  tmpPath : String
  yauzlErr : Option String
  entryList : List ZipEntry
  openEntryOk : Bool
  store : String → Option Nat
  mimeType : String → Option String

/-- The observable outcome of a handled request: the response status,
whether the HMAC of the payload was computed, which store key was
fetched for a plain file (none when no store fetch occurred), and the
Content-Type the handler set (none when left unset). -/
structure HandlerResult where
  status : Nat
  macComputed : Bool
  storeFetchedKey : Option String
  typeSet : Option String
deriving DecidableEq

/-- The route handler of src/server.js lines 98-173, combined with the
error middleware of lines 60-76 and with getZip of lines 184-212 on the
archive branch.  The result is none exactly when a JavaScript exception
escaped the zip entry handler, in which case no response is produced at
all (the process-level uncaughtException handler shuts the server
down). -/
def handleRequest (env : ServerEnv) (payloadSeg signature filename : String) :
    Option HandlerResult :=
  if !matchesSignatureRe signature then
    some { status := 400, macComputed := false, storeFetchedKey := none, typeSet := none }
  else if signature ≠ env.hmacSig payloadSeg then
    some { status := 400, macComputed := true, storeFetchedKey := none, typeSet := none }
  else
    match env.decodePayload payloadSeg with
    | none =>
      some { status := 500, macComputed := true, storeFetchedKey := none, typeSet := none }
    | some p =>
      if !truthyNat p.expires || !truthyStr p.hash then
        some { status := 500, macComputed := true, storeFetchedKey := none, typeSet := none }
      else if p.expires.getD 0 ≤ env.now then
        some { status := 410, macComputed := true, storeFetchedKey := none, typeSet := none }
      else if p.zip then
        let zres : LoadResult :=
          match env.reg with
          | some z => .ok z
          | none => zipLoadModel env.prims env.zipMaxFiles env.zipMaxFileSize
              env.tmpPath env.yauzlErr env.entryList
        match zres with
        | .crashed _ _ => none
        | .failed _ _ =>
          some { status := 500, macComputed := true, storeFetchedKey := none, typeSet := none }
        | .ok z =>
          match getStreamModel z filename env.openEntryOk with
          | (_, .error e) =>
            if e == "EntryNotFound" then
              some { status := 404, macComputed := true, storeFetchedKey := none, typeSet := none }
            else
              some { status := 500, macComputed := true, storeFetchedKey := none, typeSet := none }
          | (_, .ok _) =>
            some { status := 200, macComputed := true, storeFetchedKey := none,
                   typeSet := env.mimeType filename }
      else
        if p.filename ≠ some filename then
          some { status := 404, macComputed := true, storeFetchedKey := none, typeSet := none }
        else
          match env.store (p.hash.getD "") with
          | none =>
            some { status := 500, macComputed := true,
                   storeFetchedKey := some (p.hash.getD ""), typeSet := none }
          | some _ =>
            let ts : Option String :=
              if truthyStr p.contentType then
                some ((p.contentType.getD "")
                  ++ (if truthyStr p.charset then "; charset=" ++ p.charset.getD "" else ""))
              else none
            some { status := 200, macComputed := true,
                   storeFetchedKey := some (p.hash.getD ""), typeSet := ts }

/-! ## The periodic sweep, src/server.js lines 217-233

Every ten seconds the server walks the registry; a mount with no active
streams whose accessed time plus zipCacheTime seconds (times 1000, the
clock is in milliseconds) lies at or before the current time is
destroyed, its staged file unlinked, and its registry entry deleted. -/

/-- The eviction condition of src/server.js lines 222-223. -/
def sweepShouldEvict (zipCacheTime t : Nat) (z : Zip) : Bool :=
  z.activeStreamNum == 0 && decide (z.accessed + zipCacheTime * 1000 ≤ t)

/-- What one sweep run does: the registry afterwards, the mounts it
destroyed, and the staged paths it unlinked. -/
structure SweepResult where
  kept : List (String × Zip)
  destroyedMounts : List (String × Zip)
  unlinkedPaths : List String
deriving DecidableEq

/-- The sweep body of src/server.js lines 217-233 over a registry given
as an association list. -/
def sweepModel (zipCacheTime t : Nat) (regs : List (String × Zip)) : SweepResult :=
  { kept := regs.filter (fun p => !sweepShouldEvict zipCacheTime t p.2),
    destroyedMounts :=
      (regs.filter (fun p => sweepShouldEvict zipCacheTime t p.2)).map
        (fun p => (p.1, p.2.destroy)),
    unlinkedPaths :=
      (regs.filter (fun p => sweepShouldEvict zipCacheTime t p.2)).map
        (fun p => p.2.path) }

/-! ## getZip run to completion without interference, src/server.js
lines 184-212

The sequential behaviour of one getZip call: registry hit refreshes the
accessed time; registry miss downloads to a staging path and loads a
candidate.  On a load failure the awaited promise rejects, the function
is abandoned at that await, the check-and-set never runs, nothing is
unlinked and nothing is registered. -/

/-- What a getZip caller receives. -/
inductive GetZipRet where
  | ok (z : Zip)
  | err (msg : String)
  | crash (errName errMsg : String)
deriving DecidableEq

/-- The observable outcome of one uncontended getZip call: the registry
slot for the hash afterwards, the value delivered to the caller, every
staged path unlinked during the call, and the final state of the
candidate mount the call constructed, if any. -/
structure GetZipOutcome where
  registryAfter : Option Zip
  ret : GetZipRet
  unlinkedPaths : List String
  candidate : Option Zip
deriving DecidableEq

/-- getZip of src/server.js lines 184-212 run without a concurrent
competitor, over the registry slot regSlot for the requested hash. -/
def getZipModel (prims : JsStringPrims) (regSlot : Option Zip) (now : Nat)
    (maxFiles maxFileSize : Nat) (tmpPath : String) (yauzlErr : Option String)
    (entryList : List ZipEntry) : GetZipOutcome :=
  match regSlot with
  | some z =>
    let z1 := { z with accessed := now }
    { registryAfter := some z1, ret := .ok z1, unlinkedPaths := [], candidate := none }
  | none =>
    match zipLoadModel prims maxFiles maxFileSize tmpPath yauzlErr entryList with
    | .crashed n m =>
      { registryAfter := none, ret := .crash n m, unlinkedPaths := [], candidate := none }
    | .failed zd e =>
      { registryAfter := none, ret := .err e, unlinkedPaths := [], candidate := some zd }
    | .ok z1 =>
      let z2 := { z1 with accessed := now }
      { registryAfter := some z2, ret := .ok z2, unlinkedPaths := [], candidate := some z2 }

/-! ## Two concurrent getZip calls for one unseen hash

src/server.js is single threaded; control can change hands only at the
two awaits of getZip (the staged download and the load).  One call is
therefore three atomic phases: the registry check of line 185, the
download-and-load of lines 191-198, and the check-and-set of
lines 202-211, which contains no await and runs atomically.  The state
of the registry slot for the one contested hash, of the two candidate
mounts, and of the callers is made explicit and each interleaving is a
list of caller indices. -/

/-- The phase a getZip caller is in. -/
inductive RacePC where
  | check
  | load
  | cas
  | done
deriving DecidableEq

/-- The local state of one racing getZip caller: its phase, whether its
candidate mount exists, the isActive flag of that candidate, whether the
staging file of that candidate was deleted, and the mount the call
returned (identified by the caller, false or true, that created it). -/
structure CallerState where
  pc : RacePC
  created : Bool
  active : Bool
  unlinked : Bool
  res : Option Bool
deriving DecidableEq

/-- Shared and per-caller state of the two racing getZip calls.  slot is
the registry entry for the contested hash, holding the identity of the
caller whose candidate is registered. -/
structure RaceState where
  slot : Option Bool
  a : CallerState
  b : CallerState
deriving DecidableEq

/-- The local state of caller i. -/
def RaceState.caller (s : RaceState) (i : Bool) : CallerState :=
  if i then s.b else s.a

/-- Replace the local state of caller i. -/
def RaceState.setCaller (s : RaceState) (i : Bool) (c : CallerState) : RaceState :=
  if i then { s with b := c } else { s with a := c }

/-- One atomic phase of caller i, following src/server.js lines 184-212:
check returns a registered mount at once; load constructs an active
candidate; the check-and-set registers the candidate when the slot is
still empty and otherwise destroys the candidate, unlinks its staging
file and returns the slot holder. -/
def raceStep (i : Bool) (s : RaceState) : RaceState :=
  let c := s.caller i
  match c.pc with
  | .check =>
    match s.slot with
    | some w => s.setCaller i { c with pc := RacePC.done, res := some w }
    | none => s.setCaller i { c with pc := RacePC.load }
  | .load =>
    s.setCaller i { c with pc := RacePC.cas, created := true, active := true }
  | .cas =>
    match s.slot with
    | some w =>
      s.setCaller i { c with pc := RacePC.done, active := false, unlinked := true, res := some w }
    | none =>
      { s.setCaller i { c with pc := RacePC.done, res := some i } with slot := some i }
  | .done => s

/-- A caller that has not started. -/
def callerInit : CallerState :=
  { pc := RacePC.check, created := false, active := false, unlinked := false, res := none }

/-- Both callers about to run against a hash with no registry entry. -/
def raceInit : RaceState :=
  { slot := none, a := callerInit, b := callerInit }

/-- Run an interleaving, given as the list of which caller takes the
next atomic phase. -/
def raceRun (l : List Bool) : RaceState :=
  l.foldl (fun s i => raceStep i s) raceInit

/-- All states reachable from raceInit in at most seven phases, which is
every reachable state since each caller is done after three. -/
def raceReach : List RaceState :=
  (fun l => (l ++ l.flatMap (fun s => [raceStep false s, raceStep true s])).dedup)^[7] [raceInit]

/-! ## Concrete instances used to evaluate the models -/

/-- A concrete instance of the platform string primitives for running
the models on closed inputs.  On the empty string every field agrees
with the corresponding Node builtin: base64-decoding the empty string,
escaping it and percent-decoding it each yield the empty string.  The
closed theorems below evaluate these fields only at the empty string or
not at all; the parametric theorems quantify over the primitives. -/
def trivPrims : JsStringPrims :=
  { bufferBase64ToString := fun s => s,
    jsEscape := fun s => s,
    jsDecodeURIComponent := fun s => some s }

/-- A mounted archive holding one entry named a.txt, as produced by a
successful load. -/
def zC2 : Zip :=
  { maxFiles := 0, maxFileSize := 0, isActive := true,
    entries := [("a.txt", { fileName := "a.txt", uncompressedSize := 3 })],
    path := "tmpA", accessed := 0, zipfileOpen := true, activeStreamNum := 0 }

/-- Claim C2: every entry stream opened by getStream increments
activeStreamNum exactly once before delivery and decrements it exactly
once however the stream ends, including consumer abandonment.  The code
violates this: src/zip.js lines 179-185 register handlers only for the
error and end events of the read stream, so a stream destroyed by its
consumer (a client disconnect, which emits only close) never fires the
decrement, and the counter stays above its prior value forever.  This
theorem evaluates the code at that failing input: the open increments
the counter to 1 and delivers the stream; the end and error terminations
return it to 0; abandonment leaves it at 1. -/
theorem c2_abandoned_stream_never_decremented :
    (getStreamModel zC2 "a.txt" true).1.activeStreamNum = 1 ∧
    (getStreamModel zC2 "a.txt" true).2 = Except.ok () ∧
    (endStreamModel (getStreamModel zC2 "a.txt" true).1 StreamEnd.ended).activeStreamNum = 0 ∧
    (endStreamModel (getStreamModel zC2 "a.txt" true).1 StreamEnd.readError).activeStreamNum = 0 ∧
    (endStreamModel (getStreamModel zC2 "a.txt" true).1 StreamEnd.abandoned).activeStreamNum = 1 :=
  ⟨rfl, rfl, rfl, rfl, rfl⟩

/-- An entry whose declared uncompressed size exceeds a limit of 100. -/
def bigEntry : ZipEntry := { fileName := "big.bin", uncompressedSize := 200 }

/-- Claim C6: the first entry over maxFileSize should abort the load
with an error that propagates to the caller.  The code intends this but
cannot deliver it: the oversize branch of \_processEntry (src/zip.js
line 119) invokes callback, an identifier bound nowhere in that
function, so a ReferenceError is thrown out of the entry event handler
instead; the load callback never fires and the process-level
uncaughtException handler shuts the server down.  This theorem evaluates
the code at the failing input: loading a zip whose single entry has
uncompressed size 200 against a limit of 100 crashes with the
ReferenceError rather than failing with the intended size error. -/
theorem c6_oversize_entry_reference_error :
    zipLoadModel trivPrims 0 100 "tmpB" none [bigEntry] =
      LoadResult.crashed "ReferenceError" "callback is not defined" := by
  decide

/-- Claim C3: for every sweep run and every registered mount, a mount
with active streams survives regardless of idle time, and a mount with
no active streams whose accessed time lies at least the idle TTL (in
milliseconds) in the past is removed from the registry, destroyed, and
its staged path unlinked. -/
theorem c3_sweep_eviction (ct t : Nat) (regs : List (String × Zip)) (h : String) (z : Zip)
    (hmem : (h, z) ∈ regs) :
    (0 < z.activeStreamNum → (h, z) ∈ (sweepModel ct t regs).kept) ∧
    (z.activeStreamNum = 0 → z.accessed + ct * 1000 ≤ t →
      (h, z) ∉ (sweepModel ct t regs).kept ∧
      (h, z.destroy) ∈ (sweepModel ct t regs).destroyedMounts ∧
      z.destroy.isActive = false ∧
      z.path ∈ (sweepModel ct t regs).unlinkedPaths) := by
  constructor
  · intro hpos
    have hcond : sweepShouldEvict ct t z = false := by
      unfold sweepShouldEvict
      have : (z.activeStreamNum == 0) = false := by
        simp [Nat.pos_iff_ne_zero.mp hpos]
      simp [this]
    exact List.mem_filter.mpr ⟨hmem, by simp [hcond]⟩
  · intro hzero hidle
    have hcond : sweepShouldEvict ct t z = true := by
      unfold sweepShouldEvict
      simp [hzero, hidle]
    refine ⟨?_, ?_, rfl, ?_⟩
    · intro hk
      have := (List.mem_filter.mp hk).2
      simp [hcond] at this
    · exact List.mem_map.mpr ⟨(h, z), List.mem_filter.mpr ⟨hmem, hcond⟩, rfl⟩
    · exact List.mem_map.mpr ⟨(h, z), List.mem_filter.mpr ⟨hmem, hcond⟩, rfl⟩

/-- An idle mount: no active streams, last accessed at time 0. -/
def zIdle : Zip :=
  { maxFiles := 0, maxFileSize := 0, isActive := true, entries := [],
    path := "tmpIdle", accessed := 0, zipfileOpen := true, activeStreamNum := 0 }

/-- A busy mount: one active stream, last accessed at time 0. -/
def zBusy : Zip :=
  { maxFiles := 0, maxFileSize := 0, isActive := true, entries := [],
    path := "tmpBusy", accessed := 0, zipfileOpen := true, activeStreamNum := 1 }

/-- Witness for c3_sweep_eviction at a concrete registry and clock: the
idle mount at TTL 60 seconds and time 100000 ms is evicted, destroyed
and its path unlinked. -/
theorem c3_sweep_eviction_witness :
    (0 < zIdle.activeStreamNum → ("h1", zIdle) ∈ (sweepModel 60 100000 [("h1", zIdle), ("h2", zBusy)]).kept) ∧
    (zIdle.activeStreamNum = 0 → zIdle.accessed + 60 * 1000 ≤ 100000 →
      ("h1", zIdle) ∉ (sweepModel 60 100000 [("h1", zIdle), ("h2", zBusy)]).kept ∧
      ("h1", zIdle.destroy) ∈ (sweepModel 60 100000 [("h1", zIdle), ("h2", zBusy)]).destroyedMounts ∧
      zIdle.destroy.isActive = false ∧
      zIdle.path ∈ (sweepModel 60 100000 [("h1", zIdle), ("h2", zBusy)]).unlinkedPaths) :=
  c3_sweep_eviction 60 100000 [("h1", zIdle), ("h2", zBusy)] "h1" zIdle (by decide)

/-- Claim C9 counterexample: the claim asserts that a failed load also
deletes the staged temporary file.  Running getZip on an unregistered
hash whose staged download fails to open as a zip shows otherwise: the
error propagates, nothing is registered, the candidate is destroyed
(isActive cleared, handle closed), but unlinkedPaths is empty — the
staged file at tmpD is never deleted on this path.  Zip.destroy
(src/zip.js lines 191-197) only closes the handle, and the rejection of
the awaited load exits getZip (src/server.js line 193) before any
fs.unlink call is reached. -/
theorem c9_load_failure_counterexample :
    getZipModel trivPrims none 5 0 0 "tmpD" (some "invalid zip") [] =
      { registryAfter := none, ret := GetZipRet.err "invalid zip", unlinkedPaths := [],
        candidate := some ((Zip.fresh 0 0 "tmpD").destroy) } ∧
    ((Zip.fresh 0 0 "tmpD").destroy).isActive = false ∧
    ((Zip.fresh 0 0 "tmpD").destroy).zipfileOpen = false := by
  decide

/-- Claim C9 (amended): for every failed Zip.load signalled through the
load callback (open or parse error reported by yauzl, or too many
entries), the partial mount is destroyed (not Active, handle closed),
the failure propagates to the caller, and the mount is never registered
in the cache; the staged temporary file, however, is not deleted on this
path — only the sweep, shutdown and race-loser paths unlink it. -/
theorem c9_load_failure_not_registered (prims : JsStringPrims)
    (now maxFiles maxFileSize : Nat) (tmpPath msg : String) (entryList : List ZipEntry) :
    (getZipModel prims none now maxFiles maxFileSize tmpPath (some msg) entryList =
      { registryAfter := none, ret := GetZipRet.err msg, unlinkedPaths := [],
        candidate := some ((Zip.fresh maxFiles maxFileSize tmpPath).destroy) }) ∧
    ((Zip.fresh maxFiles maxFileSize tmpPath).destroy).isActive = false ∧
    ((Zip.fresh maxFiles maxFileSize tmpPath).destroy).zipfileOpen = false ∧
    (maxFiles ≠ 0 → entryList.length > maxFiles →
      getZipModel prims none now maxFiles maxFileSize tmpPath none entryList =
        { registryAfter := none, ret := GetZipRet.err "Too many entries", unlinkedPaths := [],
          candidate := some ((Zip.fresh maxFiles maxFileSize tmpPath).destroy) }) := by
  refine ⟨rfl, rfl, rfl, ?_⟩
  intro hmf hlen
  unfold getZipModel zipLoadModel
  have : (decide (maxFiles ≠ 0) && decide (entryList.length > maxFiles)) = true := by
    simp [hmf, hlen]
  simp only [this]
  rfl

/-- Witness for c9_load_failure_not_registered at concrete inputs,
including the too-many-entries branch with a two-entry list against a
limit of 1. -/
theorem c9_load_failure_not_registered_witness :
    (getZipModel trivPrims none 7 1 0 "tmpE" (some "boom") [bigEntry, bigEntry] =
      { registryAfter := none, ret := GetZipRet.err "boom", unlinkedPaths := [],
        candidate := some ((Zip.fresh 1 0 "tmpE").destroy) }) ∧
    getZipModel trivPrims none 7 1 0 "tmpE" none [bigEntry, bigEntry] =
      { registryAfter := none, ret := GetZipRet.err "Too many entries", unlinkedPaths := [],
        candidate := some ((Zip.fresh 1 0 "tmpE").destroy) } :=
  ⟨(c9_load_failure_not_registered trivPrims 7 1 0 "tmpE" "boom" [bigEntry, bigEntry]).1,
   (c9_load_failure_not_registered trivPrims 7 1 0 "tmpE" "boom" [bigEntry, bigEntry]).2.2.2
     (by decide) (by decide)⟩

/-! ## Concrete request environments -/

/-- Sixty-four lowercase a characters: a value with the shape of an
HMAC-SHA256 hex digest. -/
def sig64a : String := String.mk (List.replicate 64 'a')

/-- Sixty-four uppercase A characters: matches the [0-9A-Fa-f] pattern
of src/server.js line 106 but is not lowercase hex. -/
def sig64A : String := String.mk (List.replicate 64 'A')

/-- A decoded token whose expires field is present but zero. -/
def payloadExpires0 : Payload :=
  { expires := some 0, hash := some "abc", zip := false, filename := some "file",
    contentType := none, charset := none }

/-- A request environment whose digest function returns sig64a and whose
decoder yields payloadExpires0; the store holds every hash. -/
def envExpires0 : ServerEnv :=
  { hmacSig := fun _ => sig64a, decodePayload := fun _ => some payloadExpires0,
    now := 100, reg := none, prims := trivPrims, zipMaxFiles := 0, zipMaxFileSize := 0,
    tmpPath := "tmp", yauzlErr := none, entryList := [], openEntryOk := true,
    store := fun _ => some 7, mimeType := fun _ => none }

/-- Claim C4 counterexample: the claim asserts that whenever the
signature verifies and the decoded expires field is at most the current
time the response is 410.  A correctly signed token whose expires field
is 0 (which is at most now = 100) instead yields 500: the truthiness
guard of src/server.js line 120 treats a zero expires exactly like a
missing one and throws 500 before the expiration test at line 127 is
reached. -/
theorem c4_zero_expires_counterexample :
    envExpires0.hmacSig "tok" = sig64a ∧
    envExpires0.decodePayload "tok" = some payloadExpires0 ∧
    payloadExpires0.expires.getD 0 ≤ envExpires0.now ∧
    handleRequest envExpires0 "tok" sig64a "file" =
      some { status := 500, macComputed := true, storeFetchedKey := none, typeSet := none } := by
  refine ⟨rfl, rfl, by decide, ?_⟩
  decide

/-- Claim C4 (amended): for every request whose signature verifies
against the payload and whose decoded token passes the presence guard of
src/server.js line 120 (expires and hash both present and nonzero),
expires at most now yields 410, and expires beyond now with existing
content yields 200, on the plain-file branch when the path filename
matches and the store holds the hash, and on the archive branch when an
active registered mount holds the entry and the read stream opens.  A
token with a zero or missing expires or hash yields 500 even when
expired. -/
theorem c4_expiry_boundary (env : ServerEnv) (payloadSeg sig fn : String) (p : Payload)
    (z : Zip) (en : ZipEntry) (cl : Nat)
    (hre : matchesSignatureRe sig = true)
    (hsig : env.hmacSig payloadSeg = sig)
    (hdec : env.decodePayload payloadSeg = some p)
    (hexp : truthyNat p.expires = true)
    (hhash : truthyStr p.hash = true) :
    (p.expires.getD 0 ≤ env.now →
      handleRequest env payloadSeg sig fn =
        some { status := 410, macComputed := true, storeFetchedKey := none, typeSet := none }) ∧
    (env.now < p.expires.getD 0 → p.zip = false → p.filename = some fn →
      env.store (p.hash.getD "") = some cl →
      (handleRequest env payloadSeg sig fn).map (fun r => r.status) = some 200) ∧
    (env.now < p.expires.getD 0 → p.zip = true → env.reg = some z → z.isActive = true →
      z.entries.lookup fn = some en → env.openEntryOk = true →
      (handleRequest env payloadSeg sig fn).map (fun r => r.status) = some 200) := by
  refine ⟨?_, ?_, ?_⟩
  · intro hle
    simp [handleRequest, hre, hsig, hdec, hexp, hhash, hle]
  · intro hgt hzip hfn hcl
    simp [handleRequest, hre, hsig, hdec, hexp, hhash, not_le.mpr hgt, hzip, hfn, hcl]
  · intro hgt hzip hreg hact hlook hopen
    simp [handleRequest, hre, hsig, hdec, hexp, hhash, not_le.mpr hgt, hzip, hreg,
      getStreamModel, hact, hlook, hopen]

/-- A decoded token with a future expiration on the plain-file branch. -/
def payloadOk : Payload :=
  { expires := some 900, hash := some "abc", zip := false, filename := some "file",
    contentType := none, charset := none }

/-- Like envExpires0 but decoding to payloadOk. -/
def envOk : ServerEnv :=
  { hmacSig := fun _ => sig64a, decodePayload := fun _ => some payloadOk,
    now := 100, reg := none, prims := trivPrims, zipMaxFiles := 0, zipMaxFileSize := 0,
    tmpPath := "tmp", yauzlErr := none, entryList := [], openEntryOk := true,
    store := fun _ => some 7, mimeType := fun _ => none }

/-- Witness for c4_expiry_boundary: the concrete valid unexpired
plain-file request yields 200. -/
theorem c4_expiry_boundary_witness :
    (handleRequest envOk "tok" sig64a "file").map (fun r => r.status) = some 200 :=
  (c4_expiry_boundary envOk "tok" sig64a "file" payloadOk zC2
      { fileName := "a.txt", uncompressedSize := 3 } 7
      (by decide) rfl rfl (by decide) (by decide)).2.1
    (by decide) (by decide) (by decide) rfl

/-- Claim C5 counterexample: the claim asserts that every signature that
is not exactly 64 lowercase hex characters is rejected before the HMAC
is computed, so that only lowercase-hex signatures reach the MAC
comparison.  The pattern of src/server.js line 106 is [0-9A-Fa-f]{64},
which also admits uppercase: a signature of 64 uppercase A characters is
not lowercase hex yet passes the fast check, and the handler computes
the HMAC for it (it is then rejected 400 by the comparison, not by the
pattern). -/
theorem c5_uppercase_reaches_mac_counterexample :
    isLowerHex64 sig64A = false ∧
    matchesSignatureRe sig64A = true ∧
    (handleRequest envExpires0 "tok" sig64A "file").map (fun r => r.macComputed) = some true ∧
    (handleRequest envExpires0 "tok" sig64A "file").map (fun r => r.status) = some 400 := by
  refine ⟨by decide, by decide, ?_, ?_⟩ <;> decide

/-- Claim C5 (amended): the fast-reject pattern is 64 hexadecimal
characters of either case; every signature not matching that pattern is
rejected with 400 before any HMAC is computed, and hence only
pattern-matching signatures reach the MAC comparison — but an
uppercase-hex signature does reach it. -/
theorem c5_fast_reject_before_mac (env : ServerEnv) (payloadSeg sig fn : String)
    (h : matchesSignatureRe sig = false) :
    handleRequest env payloadSeg sig fn =
      some { status := 400, macComputed := false, storeFetchedKey := none, typeSet := none } := by
  simp [handleRequest, h]

/-- Witness for c5_fast_reject_before_mac at a signature that fails the
pattern by length. -/
theorem c5_fast_reject_before_mac_witness :
    handleRequest envExpires0 "tok" "deadbeef" "file" =
      some { status := 400, macComputed := false, storeFetchedKey := none, typeSet := none } :=
  c5_fast_reject_before_mac envExpires0 "tok" "deadbeef" "file" (by decide)

/-- Claim C7: on the plain-file branch of a validated request, a path
filename different from the token filename yields 404 with no store
fetch (src/server.js lines 153-155), and an equal filename causes the
byte stream to be fetched from the store keyed by the token hash
(line 158). -/
theorem c7_plain_filename_guard (env : ServerEnv) (payloadSeg sig fn : String) (p : Payload)
    (hre : matchesSignatureRe sig = true)
    (hsig : env.hmacSig payloadSeg = sig)
    (hdec : env.decodePayload payloadSeg = some p)
    (hexp : truthyNat p.expires = true)
    (hhash : truthyStr p.hash = true)
    (hgt : env.now < p.expires.getD 0)
    (hzip : p.zip = false) :
    (p.filename ≠ some fn →
      handleRequest env payloadSeg sig fn =
        some { status := 404, macComputed := true, storeFetchedKey := none, typeSet := none }) ∧
    (p.filename = some fn →
      (handleRequest env payloadSeg sig fn).map (fun r => r.storeFetchedKey) =
        some (some (p.hash.getD ""))) := by
  constructor
  · intro hne
    simp [handleRequest, hre, hsig, hdec, hexp, hhash, not_le.mpr hgt, hzip, hne]
  · intro heq
    cases hst : env.store (p.hash.getD "") with
    | none =>
      simp [handleRequest, hre, hsig, hdec, hexp, hhash, not_le.mpr hgt, hzip, heq, hst]
    | some cl =>
      simp [handleRequest, hre, hsig, hdec, hexp, hhash, not_le.mpr hgt, hzip, heq, hst]

/-- Witness for c7_plain_filename_guard: the mismatching filename other
is 404 with no fetch, and the matching filename fetches key abc. -/
theorem c7_plain_filename_guard_witness :
    (handleRequest envOk "tok" sig64a "other" =
      some { status := 404, macComputed := true, storeFetchedKey := none, typeSet := none }) ∧
    (handleRequest envOk "tok" sig64a "file").map (fun r => r.storeFetchedKey) =
      some (some "abc") :=
  ⟨(c7_plain_filename_guard envOk "tok" sig64a "other" payloadOk (by decide) rfl rfl
      (by decide) (by decide) (by decide) (by decide)).1 (by decide),
   (c7_plain_filename_guard envOk "tok" sig64a "file" payloadOk (by decide) rfl rfl
      (by decide) (by decide) (by decide) (by decide)).2 (by decide)⟩

/-- Claim C10: on a validated plain-file request whose token has a
charset but no contentType, the handler leaves the response Content-Type
unset: src/server.js lines 159-165 consult charset only inside the
branch guarded by a truthy contentType. -/
theorem c10_charset_without_content_type_ignored (env : ServerEnv)
    (payloadSeg sig fn : String) (p : Payload)
    (hre : matchesSignatureRe sig = true)
    (hsig : env.hmacSig payloadSeg = sig)
    (hdec : env.decodePayload payloadSeg = some p)
    (hexp : truthyNat p.expires = true)
    (hhash : truthyStr p.hash = true)
    (hgt : env.now < p.expires.getD 0)
    (hzip : p.zip = false)
    (hfn : p.filename = some fn)
    (hct : truthyStr p.contentType = false)
    (hcs : truthyStr p.charset = true) :
    (handleRequest env payloadSeg sig fn).map (fun r => r.typeSet) = some none := by
  cases hst : env.store (p.hash.getD "") with
  | none =>
    simp [handleRequest, hre, hsig, hdec, hexp, hhash, not_le.mpr hgt, hzip, hfn, hst]
  | some cl =>
    simp [handleRequest, hre, hsig, hdec, hexp, hhash, not_le.mpr hgt, hzip, hfn, hst, hct]

/-- A decoded token carrying a charset but no contentType. -/
def payloadCharsetOnly : Payload :=
  { expires := some 900, hash := some "abc", zip := false, filename := some "file",
    contentType := none, charset := some "utf-8" }

/-- Like envOk but decoding to payloadCharsetOnly. -/
def envCharsetOnly : ServerEnv :=
  { hmacSig := fun _ => sig64a, decodePayload := fun _ => some payloadCharsetOnly,
    now := 100, reg := none, prims := trivPrims, zipMaxFiles := 0, zipMaxFileSize := 0,
    tmpPath := "tmp", yauzlErr := none, entryList := [], openEntryOk := true,
    store := fun _ => some 7, mimeType := fun _ => none }

/-- Witness for c10_charset_without_content_type_ignored at the concrete
charset-only token. -/
theorem c10_charset_without_content_type_ignored_witness :
    (handleRequest envCharsetOnly "tok" sig64a "file").map (fun r => r.typeSet) = some none :=
  c10_charset_without_content_type_ignored envCharsetOnly "tok" sig64a "file"
    payloadCharsetOnly (by decide) rfl rfl (by decide) (by decide) (by decide)
    (by decide) (by decide) (by decide) (by decide)

/-! ## Lemmas about the entry indexing fold -/

/-- A legacy-marked, non-directory entry whose name decodes to a
non-empty d is indexed under d, in front of the previous bindings. -/
theorem indexEntryStep_legacy_some (prims : JsStringPrims) (es : List (String × ZipEntry))
    (e : ZipEntry) (d : String)
    (hdir : e.fileName.takeRight 1 ≠ "/")
    (hmk : (e.fileName.takeRight 5 == "%ZB64") = true)
    (hdec : decodeOldFilename prims e.fileName = some d)
    (hd : d ≠ "") :
    indexEntryStep prims es e = (d, e) :: es := by
  unfold indexEntryStep
  rw [if_pos hdir]
  simp [hmk, hdec, hd]

/-- A legacy-marked, non-directory entry whose name fails to decode is
dropped: the index is unchanged. -/
theorem indexEntryStep_legacy_none (prims : JsStringPrims) (es : List (String × ZipEntry))
    (e : ZipEntry)
    (hdir : e.fileName.takeRight 1 ≠ "/")
    (hmk : (e.fileName.takeRight 5 == "%ZB64") = true)
    (hdec : decodeOldFilename prims e.fileName = none) :
    indexEntryStep prims es e = es := by
  unfold indexEntryStep
  rw [if_pos hdir]
  simp [hmk, hdec]

/-- One indexing step never removes a name from the index. -/
theorem lookup_isSome_indexEntryStep (prims : JsStringPrims) (es : List (String × ZipEntry))
    (e : ZipEntry) (k : String)
    (h : (es.lookup k).isSome = true) :
    ((indexEntryStep prims es e).lookup k).isSome = true := by
  unfold indexEntryStep
  split
  · cases hd : (if e.fileName.takeRight 5 == "%ZB64" then
        decodeOldFilename prims e.fileName else some e.fileName) with
    | none => simpa [hd] using h
    | some f =>
      by_cases hf : f = ""
      · simp [hd, hf, h]
      · simp only [hd, if_pos hf]
        by_cases hk : (k == f) = true <;> simp [List.lookup, hk, h]
  · exact h

/-- Folding further entries over the index never removes a name. -/
theorem lookup_isSome_foldl (prims : JsStringPrims) (t : List ZipEntry)
    (es : List (String × ZipEntry)) (k : String)
    (h : (es.lookup k).isSome = true) :
    ((t.foldl (fun es e => indexEntryStep prims es e) es).lookup k).isSome = true := by
  induction t generalizing es with
  | nil => exact h
  | cons e t ih =>
    rw [List.foldl_cons]
    exact ih _ (lookup_isSome_indexEntryStep prims es e k h)

/-- With an unlimited maxFileSize no entry can throw, and the entry loop
is the plain fold of the indexing step. -/
theorem runEntries_eq_foldl (prims : JsStringPrims) (l : List ZipEntry) (z : Zip)
    (h : z.maxFileSize = 0) :
    runEntries prims z l =
      .ok (l.foldl (fun es e => indexEntryStep prims es e) z.entries) := by
  induction l generalizing z with
  | nil => rfl
  | cons e t ih =>
    have hp : processEntry prims z e = .ok (indexEntryStep prims z.entries e) := by
      unfold processEntry
      simp [h]
    rw [runEntries, hp, List.foldl_cons]
    exact ih { z with entries := indexEntryStep prims z.entries e } h

/-- With both limits unlimited, loading never fails and the final index
is the fold of the indexing step over the entries. -/
theorem zipLoadModel_unlimited (prims : JsStringPrims) (path : String) (l : List ZipEntry) :
    zipLoadModel prims 0 0 path none l =
      LoadResult.ok
        { Zip.fresh 0 0 path with
          zipfileOpen := true,
          entries := l.foldl (fun es a => indexEntryStep prims es a) [],
          isActive := true } := by
  have h1 := runEntries_eq_foldl prims l { Zip.fresh 0 0 path with zipfileOpen := true } rfl
  simp only [zipLoadModel, h1]
  simp [Zip.fresh]

/-- getStream on an active mount whose index holds the name delivers the
stream. -/
theorem getStreamModel_ok_of_lookup (z : Zip) (k : String)
    (hact : z.isActive = true)
    (h : (z.entries.lookup k).isSome = true) :
    (getStreamModel z k true).2 = Except.ok () := by
  obtain ⟨en, hen⟩ := Option.isSome_iff_exists.mp h
  unfold getStreamModel
  rw [hact]
  simp [hen]

/-- The entry named exactly %ZB64, whose payload after the marker is
empty. -/
def zb64EmptyEntry : ZipEntry := { fileName := "%ZB64", uncompressedSize := 1 }

/-- The mount that loading an archive holding only zb64EmptyEntry
produces: active, with an empty index. -/
def zEmptyLoaded : Zip :=
  { Zip.fresh 0 0 "tmpF" with zipfileOpen := true, isActive := true }

/-- Claim C8 counterexample: the claim asserts that every entry whose
name ends in %ZB64 is indexed under its fully decoded name and is
retrievable by getStream under that name.  The entry named exactly %ZB64
decodes successfully to the empty string (each stage of the decode
pipeline maps the empty remainder to the empty string), yet the
truthiness test at src/zip.js line 130 drops it: the load succeeds with
an empty index and getStream under the decoded name reports
EntryNotFound. -/
theorem c8_empty_decoded_name_counterexample :
    decodeOldFilename trivPrims "%ZB64" = some "" ∧
    zipLoadModel trivPrims 0 0 "tmpF" none [zb64EmptyEntry] = LoadResult.ok zEmptyLoaded ∧
    zEmptyLoaded.entries = [] ∧
    (getStreamModel zEmptyLoaded "" true).2 = Except.error "EntryNotFound" :=
  ⟨rfl, by decide, rfl, rfl⟩

/-- Claim C8 (amended): in a load within limits, an entry whose name
carries the legacy %ZB64 marker (hence in particular does not end in the
directory separator) and decodes to a non-empty name d is indexed under
d and retrievable by getStream under d; an entry whose name fails to
decode (or decodes to the empty string, as the counterexample shows) is
dropped alone, and the load of the remaining entries still succeeds. -/
theorem c8_legacy_name_indexed (prims : JsStringPrims) (path : String)
    (xs ys : List ZipEntry) (e : ZipEntry) (d : String)
    (hdir : e.fileName.takeRight 1 ≠ "/")
    (hmk : (e.fileName.takeRight 5 == "%ZB64") = true) :
    (decodeOldFilename prims e.fileName = some d → d ≠ "" →
      ∃ z, zipLoadModel prims 0 0 path none (xs ++ e :: ys) = LoadResult.ok z ∧
        z.isActive = true ∧
        (z.entries.lookup d).isSome = true ∧
        (getStreamModel z d true).2 = Except.ok ()) ∧
    (decodeOldFilename prims e.fileName = none →
      zipLoadModel prims 0 0 path none (xs ++ e :: ys) =
        zipLoadModel prims 0 0 path none (xs ++ ys)) := by
  constructor
  · intro hdec hd
    have hsome : ((List.foldl (fun es a => indexEntryStep prims es a) []
        (xs ++ e :: ys)).lookup d).isSome = true := by
      rw [List.foldl_append, List.foldl_cons,
        indexEntryStep_legacy_some prims _ e d hdir hmk hdec hd]
      refine lookup_isSome_foldl prims ys _ d ?_
      simp [List.lookup]
    refine ⟨_, zipLoadModel_unlimited prims path (xs ++ e :: ys), rfl, hsome, ?_⟩
    exact getStreamModel_ok_of_lookup _ d rfl hsome
  · intro hdec
    rw [zipLoadModel_unlimited prims path (xs ++ e :: ys),
      zipLoadModel_unlimited prims path (xs ++ ys)]
    rw [List.foldl_append, List.foldl_cons,
      indexEntryStep_legacy_none prims _ e hdir hmk hdec, List.foldl_append]

/-- Primitives whose decode pipeline maps the remainder doc to the name
doc.htm: base64 decoding doc yields the bytes of doc.htm, which escape
and percent-decode leave unchanged. -/
def docPrims : JsStringPrims :=
  { bufferBase64ToString := fun _ => "doc.htm",
    jsEscape := fun s => s,
    jsDecodeURIComponent := fun s => some s }

/-- Witness for c8_legacy_name_indexed: with docPrims, the entry named
doc%ZB64 is indexed under doc.htm and getStream delivers it. -/
theorem c8_legacy_name_indexed_witness :
    ∃ z, zipLoadModel docPrims 0 0 "tmpG" none
        [{ fileName := "doc%ZB64", uncompressedSize := 4 }] = LoadResult.ok z ∧
      z.isActive = true ∧
      (z.entries.lookup "doc.htm").isSome = true ∧
      (getStreamModel z "doc.htm" true).2 = Except.ok () :=
  (c8_legacy_name_indexed docPrims "tmpG" []
      [] { fileName := "doc%ZB64", uncompressedSize := 4 } "doc.htm"
      (by decide) (by decide)).1 rfl (by decide)

/-! ## Exhaustive analysis of the two-caller race -/

/-- The reachable-state list contains the initial state. -/
theorem raceReach_init : raceInit ∈ raceReach := by decide

/-- The reachable-state list is closed under both callers' steps. -/
theorem raceReach_closed :
    ∀ s ∈ raceReach, raceStep false s ∈ raceReach ∧ raceStep true s ∈ raceReach := by
  decide

/-- Every state reached by folding steps from a state in the list stays
in the list. -/
theorem raceFold_mem (l : List Bool) (s : RaceState) (hs : s ∈ raceReach) :
    l.foldl (fun s i => raceStep i s) s ∈ raceReach := by
  induction l generalizing s with
  | nil => exact hs
  | cons i t ih =>
    rw [List.foldl_cons]
    cases i
    · exact ih _ (raceReach_closed s hs).1
    · exact ih _ (raceReach_closed s hs).2

/-- Every interleaving stays inside the reachable-state list. -/
theorem raceRun_mem (l : List Bool) : raceRun l ∈ raceReach :=
  raceFold_mem l raceInit raceReach_init

/-- Checked over the whole reachable-state list: a registered slot
always holds the live candidate of its creator, and once both callers
are done there is a single winner, returned to both, whose mount is
active, while any created losing candidate is destroyed and its staging
file unlinked. -/
theorem raceReach_invariant :
    ∀ s ∈ raceReach,
      (∀ w, s.slot = some w → (s.caller w).active = true ∧ (s.caller w).created = true) ∧
      ((s.caller false).pc = RacePC.done → (s.caller true).pc = RacePC.done →
        ∃ w, s.slot = some w ∧ (s.caller false).res = some w ∧ (s.caller true).res = some w ∧
          (s.caller w).active = true ∧
          ∀ j, j ≠ w → (s.caller j).created = true →
            (s.caller j).active = false ∧ (s.caller j).unlinked = true) := by
  decide

/-- Claim C1: for every interleaving of two concurrent getZip calls for
the same previously unregistered archiveHash, at every instant the
registry slot for that hash holds at most one mount (it is a single
object key) and whenever it is occupied the registered mount is live;
and once both calls complete there is exactly one winner: it is
registered, both callers received it, and a losing candidate, if one was
created, has been destroyed and its staging file deleted. -/
theorem c1_concurrent_get_single_winner (l : List Bool)
    (hA : ((raceRun l).caller false).pc = RacePC.done)
    (hB : ((raceRun l).caller true).pc = RacePC.done) :
    (∃ w, (raceRun l).slot = some w ∧
      ((raceRun l).caller false).res = some w ∧
      ((raceRun l).caller true).res = some w ∧
      ((raceRun l).caller w).active = true ∧
      ∀ j, j ≠ w → ((raceRun l).caller j).created = true →
        ((raceRun l).caller j).active = false ∧ ((raceRun l).caller j).unlinked = true) ∧
    (∀ k : Nat, ∀ w, (raceRun (l.take k)).slot = some w →
      ((raceRun (l.take k)).caller w).active = true) := by
  constructor
  · exact (raceReach_invariant (raceRun l) (raceRun_mem l)).2 hA hB
  · intro k w hw
    exact ((raceReach_invariant (raceRun (l.take k)) (raceRun_mem (l.take k))).1 w hw).1

/-- Witness for c1_concurrent_get_single_winner at the interleaving in
which caller false runs check, load and check-and-set, after which
caller true finds the registered mount at its first check. -/
theorem c1_concurrent_get_single_winner_witness :
    (∃ w, (raceRun [false, false, false, true]).slot = some w ∧
      ((raceRun [false, false, false, true]).caller false).res = some w ∧
      ((raceRun [false, false, false, true]).caller true).res = some w ∧
      ((raceRun [false, false, false, true]).caller w).active = true ∧
      ∀ j, j ≠ w → ((raceRun [false, false, false, true]).caller j).created = true →
        ((raceRun [false, false, false, true]).caller j).active = false ∧
        ((raceRun [false, false, false, true]).caller j).unlinked = true) ∧
    (∀ k : Nat, ∀ w, (raceRun ([false, false, false, true].take k)).slot = some w →
      ((raceRun ([false, false, false, true].take k)).caller w).active = true) :=
  c1_concurrent_get_single_winner [false, false, false, true] (by decide) (by decide)

end AttachmentProxy
